import Mathlib

/-!
Verification of the guestbook HTTP front-end (`Docker/app.js`)

A shallow embedding of the Express application of `Docker/app.js`: the Redis
client it owns, its three Prometheus metrics, its middleware, its six route
handlers and its start-up function `main`, followed by the theorems that
settle the properties stated about it.

Conventions of the embedding.

* The external store is a finite map from keys to lists of strings, kept as an
  association list. `RPUSH` and `LRANGE` follow the Redis commands.
* A call on the Redis client either is served or throws an `Error` carrying a
  message. Which of the two happens is not decided by `app.js`; it is given by
  the field `fault` of the client, indexed by the number of calls issued so
  far. A call that throws leaves the store as it was.
* Every call issued on the client is appended to the log `calls`.
* `async` handlers are run to completion: one request is handled at a time.
* What Express, prom-client and the JavaScript runtime do outside `app.js`
  (percent-decoding of route parameters, the reply when no handler of the
  application runs, the text rendering of the metrics) is taken as a
  parameter, the structure `Lib`.
-/

set_option autoImplicit false

namespace Dojo

/-! ## The external store -/

/-- The lists held by the store, by key. A key that is not listed holds no list. -/
abbrev Store := List (String × List String)

/-- The list stored under `k`, or `none` when the key has never been written. -/
def Store.find (s : Store) (k : String) : Option (List String) :=
  match s with
  | [] => none
  | (k', l) :: rest => if k' = k then some l else Store.find rest k

/-- The elements under `k`; a missing key reads as the empty list. -/
def Store.get (s : Store) (k : String) : List String :=
  (s.find k).getD []

/-- Redis `RPUSH k v`: append `v` at the tail of the list under `k`, creating
the list when the key is missing. -/
def Store.push (s : Store) (k v : String) : Store :=
  match s with
  | [] => [(k, [v])]
  | (k', l) :: rest =>
    if k' = k then (k', l ++ [v]) :: rest else (k', l) :: Store.push rest k v

/-- Redis `LRANGE` on a list: negative indices count from the tail, the range
is inclusive and clamped to the list. -/
def lrangeList (l : List String) (start stop : Int) : List String :=
  let llen : Int := l.length
  let start := if start < 0 then llen + start else start
  let stop := if stop < 0 then llen + stop else stop
  let start := if start < 0 then 0 else start
  if start > stop ∨ start ≥ llen then []
  else
    let stop := if stop ≥ llen then llen - 1 else stop
    (l.drop start.toNat).take (stop - start + 1).toNat

/-! ## The Redis client -/

/-- The calls `app.js` makes on `redisClient`. -/
inductive Call where
  | connect
  | lRange (key : String) (start stop : Int)
  | rPush (key value : String)
  | info
  | ping
  | quit
  deriving DecidableEq, Repr

/-- The client created by `redis.createClient` together with the store it
talks to. -/
structure RedisClient where
  /-- The `url` option given to `createClient`. -/
  url : String
  /-- The contents of the external store. -/
  store : Store
  /-- The text the server answers to `INFO`. -/
  serverInfo : String
  /-- Outcome of the call number `n` (counted from 0): `none` when it is
  served, `some m` when it throws an `Error` with message `m`. -/
  fault : Nat → Option String
  /-- The calls issued so far, oldest first. -/
  calls : List Call

/-- Record a call in the log. -/
def RedisClient.logged (r : RedisClient) (c : Call) : RedisClient :=
  { r with calls := r.calls ++ [c] }

/-- The outcome assigned to the next call to be issued. -/
def RedisClient.nextFault (r : RedisClient) : Option String :=
  r.fault r.calls.length

/-- The call `redisClient.lRange(key, start, stop)`. -/
def RedisClient.lRange (r : RedisClient) (key : String) (start stop : Int) :
    Except String (List String) × RedisClient :=
  match r.nextFault with
  | some m => (.error m, r.logged (.lRange key start stop))
  | none => (.ok (lrangeList (r.store.get key) start stop), r.logged (.lRange key start stop))

/-- The call `redisClient.rPush(key, value)`; it answers the new length. -/
def RedisClient.rPush (r : RedisClient) (key value : String) :
    Except String Nat × RedisClient :=
  match r.nextFault with
  | some m => (.error m, r.logged (.rPush key value))
  | none =>
    let store := r.store.push key value
    (.ok (store.get key).length, { r.logged (.rPush key value) with store := store })

/-- The call `redisClient.info()`. -/
def RedisClient.info (r : RedisClient) : Except String String × RedisClient :=
  match r.nextFault with
  | some m => (.error m, r.logged .info)
  | none => (.ok r.serverInfo, r.logged .info)

/-- The call `redisClient.ping()`. -/
def RedisClient.ping (r : RedisClient) : Except String String × RedisClient :=
  match r.nextFault with
  | some m => (.error m, r.logged .ping)
  | none => (.ok "PONG", r.logged .ping)

/-- The call `redisClient.connect()`. -/
def RedisClient.connect (r : RedisClient) : Except String Unit × RedisClient :=
  match r.nextFault with
  | some m => (.error m, r.logged .connect)
  | none => (.ok (), r.logged .connect)

/-! ## Configuration of the client -/

/-- The process environment, `process.env`. -/
abbrev Env := List (String × String)

/-- The value of `process.env[name]`; `none` stands for `undefined`. -/
def Env.lookupVar (env : Env) (name : String) : Option String :=
  match env with
  | [] => none
  | (n, v) :: rest => if n = name then some v else Env.lookupVar rest name

/-- The expression `process.env.REDIS_HOST || 'localhost'`: the operator `||`
yields its right operand when the left one is falsy, which for the value of
an environment variable means `undefined` or the empty string. -/
def redisHost (env : Env) : String :=
  match env.lookupVar "REDIS_HOST" with
  | none => "localhost"
  | some h => if h = "" then "localhost" else h

/-- The template literal given as `url` to `redis.createClient`. -/
def redisUrl (env : Env) : String :=
  "redis://" ++ redisHost env ++ ":6379"

/-! ## Metrics -/

/-- The values of a prom-client `Counter`, by label value. -/
abbrev Counter (L : Type) := L → Nat

/-- The call `counter.labels(l).inc()`. -/
def Counter.inc {L : Type} [DecidableEq L] (c : Counter L) (l : L) : Counter L :=
  fun x => if x = l then c x + 1 else c x

/-- The three metrics registered by `app.js`. Of the histogram only the
sequence of observations is kept, each with its labels `(method, endpoint)`;
the measured duration is not represented. -/
structure Metrics where
  /-- Counter `http_requests_total`, labels `(method, endpoint)`. -/
  httpRequestsTotal : Counter (String × String)
  /-- Histogram `http_request_duration_seconds`: the labels of the
  observations recorded so far, oldest first. -/
  httpRequestDuration : List (String × String)
  /-- Counter `redis_operations_total`, label `operation`. -/
  redisOperationsTotal : Counter String

/-! ## Requests, responses and the application state -/

/-- The part of an inbound request that `app.js` reads: `req.method` and
`req.path` (the path of the URL, without the query string). -/
structure Request where
  method : String
  path : String
  deriving DecidableEq, Repr

/-- What a handler hands to the response object. -/
inductive Body where
  /-- The call `res.json(members)` on an array of strings. -/
  | json (members : List String)
  /-- The call `res.json(process.env)`. -/
  | jsonEnv (env : Env)
  /-- The call `res.send(text)`. -/
  | send (text : String)
  /-- The call `res.end(text)` after `res.set('Content-Type', contentType)`. -/
  | raw (contentType : String) (text : String)
  deriving DecidableEq, Repr

/-- The response written by a handler: the status code and the body. -/
structure Response where
  status : Nat
  body : Body
  deriving DecidableEq, Repr

/-- How the processing of a request ends inside the application: a response
was written, or an exception left the handler with the given message. -/
abbrev Outcome := Except String Response

/-- The mutable state reachable from `app.js`. -/
structure App where
  redis : RedisClient
  metrics : Metrics
  env : Env

/-- Behaviour of the libraries that `app.js` relies on and does not define. -/
structure Lib where
  /-- Percent-decoding of a route parameter (`decodeURIComponent`); `none`
  when the parameter is malformed. -/
  decodeURIComponent : String → Option String
  /-- The reply of the framework when no handler of the application runs. -/
  frameworkReply : Request → Outcome
  /-- The value of `promClient.register.contentType`. -/
  contentType : String
  /-- The call `promClient.register.metrics()`, which may reject. -/
  renderMetrics : Metrics → Except String String

/-- The call `httpRequestsTotal.labels(req.method, req.path).inc()`. -/
def App.countRequest (a : App) (req : Request) : App :=
  { a with metrics :=
      { a.metrics with
        httpRequestsTotal := a.metrics.httpRequestsTotal.inc (req.method, req.path) } }

/-- The call `end()` on the timer started by
`httpRequestDuration.labels(method, endpoint).startTimer()`. -/
def App.endTimer (a : App) (method endpoint : String) : App :=
  { a with metrics :=
      { a.metrics with
        httpRequestDuration := a.metrics.httpRequestDuration ++ [(method, endpoint)] } }

/-- The call `redisOperationsTotal.labels(operation).inc()`. -/
def App.countOperation (a : App) (operation : String) : App :=
  { a with metrics :=
      { a.metrics with
        redisOperationsTotal := a.metrics.redisOperationsTotal.inc operation } }

/-- Replace the client after one of its calls. -/
def App.withRedis (a : App) (r : RedisClient) : App :=
  { a with redis := r }

/-! ## The route handlers -/

/-- The handler of `app.get('/lrange/:key')`. -/
def lrangeHandler (a : App) (req : Request) (key : String) : Outcome × App :=
  match a.redis.lRange key 0 (-1) with
  | (.ok members, r) =>
    (.ok ⟨200, .json members⟩,
      ((a.withRedis r).countOperation "lrange").endTimer req.method "/lrange")
  | (.error message, r) =>
    (.ok ⟨500, .send message⟩, (a.withRedis r).endTimer req.method "/lrange")

/-- The handler of `app.get('/rpush/:key/:value')`. -/
def rpushHandler (a : App) (req : Request) (key value : String) : Outcome × App :=
  match a.redis.rPush key value with
  | (.ok _, r) =>
    match r.lRange key 0 (-1) with
    | (.ok members, r') =>
      (.ok ⟨200, .json members⟩,
        ((a.withRedis r').countOperation "rpush").endTimer req.method "/rpush")
    | (.error message, r') =>
      (.ok ⟨500, .send message⟩, (a.withRedis r').endTimer req.method "/rpush")
  | (.error message, r) =>
    (.ok ⟨500, .send message⟩, (a.withRedis r).endTimer req.method "/rpush")

/-- The handler of `app.get('/info')`. -/
def infoHandler (a : App) (req : Request) : Outcome × App :=
  match a.redis.info with
  | (.ok info, r) =>
    (.ok ⟨200, .send info⟩,
      ((a.withRedis r).countOperation "info").endTimer req.method "/info")
  | (.error message, r) =>
    (.ok ⟨500, .send message⟩, (a.withRedis r).endTimer req.method "/info")

/-- The handler of `app.get('/env')`. -/
def envHandler (a : App) (req : Request) : Outcome × App :=
  (.ok ⟨200, .jsonEnv a.env⟩, a.endTimer req.method "/env")

/-- The handler of `app.get('/healthz')`; `res.sendStatus(200)` sends the
status text as the body. -/
def healthzHandler (a : App) (req : Request) : Outcome × App :=
  match a.redis.ping with
  | (.ok _, r) =>
    (.ok ⟨200, .send "OK"⟩,
      ((a.withRedis r).countOperation "ping").endTimer req.method "/healthz")
  | (.error message, r) =>
    (.ok ⟨500, .send message⟩, (a.withRedis r).endTimer req.method "/healthz")

/-- The handler of `app.get('/metrics')`. It has no `try`: a rejection of
`register.metrics()` leaves the handler. -/
def metricsHandler (lib : Lib) (a : App) : Outcome × App :=
  match lib.renderMetrics a.metrics with
  | .ok text => (.ok ⟨200, .raw lib.contentType text⟩, a)
  | .error message => (.error message, a)

/-! ## Routing -/

/-- Cut a path at every `/`. -/
def splitPath : List Char → List (List Char)
  | [] => [[]]
  | c :: cs =>
    if c = '/' then [] :: splitPath cs
    else
      match splitPath cs with
      | [] => [[c]]
      | seg :: rest => (c :: seg) :: rest

/-- The segments of a path: `/lrange/a` gives `["", "lrange", "a"]`. -/
def segments (path : String) : List String :=
  (splitPath path.data).map String.mk

/-- Lower-case form of a segment; Express matches the fixed part of a route
without regard to case. -/
def lower (seg : String) : String :=
  String.mk (seg.data.map Char.toLower)

/-- The handler selected for a request. -/
inductive Route where
  | lrange (key : String)
  | rpush (key value : String)
  | info
  | env
  | healthz
  | metrics
  /-- No handler of the application runs. -/
  | unhandled
  deriving DecidableEq, Repr

/-- A route `/name` without parameters. -/
def staticRoute (name : String) : Route :=
  if name = "info" then .info
  else if name = "env" then .env
  else if name = "healthz" then .healthz
  else if name = "metrics" then .metrics
  else .unhandled

/-- The route `/lrange/:key`; a parameter is not empty. -/
def keyRoute (lib : Lib) (name key : String) : Route :=
  if name = "lrange" ∧ key ≠ "" then
    match lib.decodeURIComponent key with
    | some k => .lrange k
    | none => .unhandled
  else .unhandled

/-- The route `/rpush/:key/:value`. -/
def keyValueRoute (lib : Lib) (name key value : String) : Route :=
  if name = "rpush" ∧ key ≠ "" ∧ value ≠ "" then
    match lib.decodeURIComponent key, lib.decodeURIComponent value with
    | some k, some v => .rpush k v
    | _, _ => .unhandled
  else .unhandled

/-- Selection of the handler among the routes declared with `app.get`, which
serve `GET` and `HEAD`. A path matches a route template segment by segment,
with or without a final `/`. -/
def matchRoute (lib : Lib) (req : Request) : Route :=
  if req.method = "GET" ∨ req.method = "HEAD" then
    match segments req.path with
    | ["", name] => staticRoute (lower name)
    | ["", name, ""] => staticRoute (lower name)
    | ["", name, key] => keyRoute lib (lower name) key
    | ["", name, key, ""] => keyRoute lib (lower name) key
    | ["", name, key, value] => keyValueRoute lib (lower name) key value
    | ["", name, key, value, ""] => keyValueRoute lib (lower name) key value
    | _ => .unhandled
  else .unhandled

/-- The application: the middleware registered with `app.use`, then the
handler of the matching route. -/
def handle (lib : Lib) (a : App) (req : Request) : Outcome × App :=
  let a := a.countRequest req
  match matchRoute lib req with
  | .lrange key => lrangeHandler a req key
  | .rpush key value => rpushHandler a req key value
  | .info => infoHandler a req
  | .env => envHandler a req
  | .healthz => healthzHandler a req
  | .metrics => metricsHandler lib a
  | .unhandled => (lib.frameworkReply req, a)

/-! ## Start-up -/

/-- The process: the application state, the port the HTTP listener is bound
to (if any) and the lines written by `console.log` and `console.error`. -/
structure Process where
  app : App
  listening : Option Nat
  stdout : List String
  stderr : List String

/-- The state after the module body has run and before `main()` is called:
the client is created from the environment, the metrics are at zero, the
listener is not bound. -/
def Process.boot (env : Env) (store : Store) (serverInfo : String)
    (fault : Nat → Option String) : Process :=
  { app :=
      { redis :=
          { url := redisUrl env, store := store, serverInfo := serverInfo,
            fault := fault, calls := [] }
        metrics :=
          { httpRequestsTotal := fun _ => 0
            httpRequestDuration := []
            redisOperationsTotal := fun _ => 0 }
        env := env }
    listening := none
    stdout := []
    stderr := [] }

/-- The function `main`: await `connect`, then bind the listener. A rejection
of `connect` rejects the promise of `main`. -/
def main (p : Process) : Except String Unit × Process :=
  match p.app.redis.connect with
  | (.error message, r) => (.error message, { p with app := p.app.withRedis r })
  | (.ok _, r) =>
    (.ok (),
      { p with
        app := p.app.withRedis r
        listening := some 3000
        stdout := p.stdout ++ ["Server is running on port 3000"] })

/-- The statement `main().catch(console.error)`. -/
def start (p : Process) : Process :=
  match main p with
  | (.ok _, p') => p'
  | (.error message, p') => { p' with stderr := p'.stderr ++ [message] }

/-! ## Vocabulary of the statements -/

/-- The call issued `i` calls from now is served. -/
def RedisClient.servedAt (r : RedisClient) (i : Nat) : Prop :=
  r.fault (r.calls.length + i) = none

/-- The call issued `i` calls from now throws an `Error` with message `m`. -/
def RedisClient.throwsAt (r : RedisClient) (i : Nat) (m : String) : Prop :=
  r.fault (r.calls.length + i) = some m

/-- The calls that the handler of a route places on the client inside its
`try` block, in the order of the source. -/
def Route.storeCalls : Route → List Call
  | .lrange key => [.lRange key 0 (-1)]
  | .rpush key value => [.rPush key value, .lRange key 0 (-1)]
  | .info => [.info]
  | .healthz => [.ping]
  | .env => []
  | .metrics => []
  | .unhandled => []

/-- The label under which the handler of a route counts in
`redis_operations_total`. -/
def Route.operation : Route → Option String
  | .lrange _ => some "lrange"
  | .rpush _ _ => some "rpush"
  | .info => some "info"
  | .healthz => some "ping"
  | .env => none
  | .metrics => none
  | .unhandled => none

/-- The `endpoint` label of the timer that the handler of a route starts. -/
def Route.timerEndpoint : Route → Option String
  | .lrange _ => some "/lrange"
  | .rpush _ _ => some "/rpush"
  | .info => some "/info"
  | .env => some "/env"
  | .healthz => some "/healthz"
  | .metrics => none
  | .unhandled => none

/-- The status code of the response, when one was written. -/
def status (o : Outcome) : Option Nat :=
  match o with
  | .ok res => some res.status
  | .error _ => none

/-! ## Sample values -/

/-- Libraries with the identity as decoding and a 404 reply. -/
def sampleLib : Lib :=
  { decodeURIComponent := some
    frameworkReply := fun _ => .ok ⟨404, .send "Not Found"⟩
    contentType := "text/plain; version=0.0.4; charset=utf-8"
    renderMetrics := fun _ => .ok "" }

/-- A freshly booted application over a given store and fault assignment. -/
def sampleApp (store : Store) (fault : Nat → Option String) : App :=
  (Process.boot [("REDIS_HOST", "redis")] store "redis_version:7" fault).app

/-- Every call is served. -/
def noFault : Nat → Option String :=
  fun _ => none

/-- The call number `n` throws `m`, the others are served. -/
def faultAt (n : Nat) (m : String) : Nat → Option String :=
  fun i => if i = n then some m else none

/-! ## Lemmas on the store -/

theorem lrangeList_all (l : List String) : lrangeList l 0 (-1) = l := by
  cases l with
  | nil => simp [lrangeList]
  | cons x xs =>
    have h1 : ¬ ((xs.length : Int) + 1 + -1 < 0) := by omega
    have h2 : ¬ ((xs.length : Int) + 1 ≤ (xs.length : Int) + 1 + -1) := by omega
    simp [lrangeList, h1, h2]

theorem Store.get_push_same (s : Store) (k v : String) :
    (s.push k v).get k = s.get k ++ [v] := by
  induction s with
  | nil => simp [Store.push, Store.get, Store.find]
  | cons e rest ih =>
    obtain ⟨k', l⟩ := e
    by_cases h : k' = k
    · simp [Store.push, Store.get, Store.find, h]
    · simpa [Store.push, Store.get, Store.find, h] using ih

theorem Store.get_push_other (s : Store) (k v k' : String) (h : k' ≠ k) :
    (s.push k v).get k' = s.get k' := by
  induction s with
  | nil => simp [Store.push, Store.get, Store.find, Ne.symm h]
  | cons e rest ih =>
    obtain ⟨k₁, l⟩ := e
    by_cases h₁ : k₁ = k
    · subst h₁
      have h₂ : ¬ k₁ = k' := fun e => h e.symm
      simp [Store.push, Store.get, Store.find, h₂]
    · by_cases h₂ : k₁ = k'
      · subst h₂
        simp [Store.push, Store.get, Store.find, h₁]
      · simpa [Store.push, Store.get, Store.find, h₁, h₂] using ih

theorem Store.get_of_find_none (s : Store) (k : String) (h : s.find k = none) :
    s.get k = [] := by
  simp [Store.get, h]

/-! ## Lemmas on the client -/

theorem RedisClient.lRange_served (r : RedisClient) (k : String)
    (h : r.nextFault = none) :
    r.lRange k 0 (-1) = (.ok (r.store.get k), r.logged (.lRange k 0 (-1))) := by
  simp [RedisClient.lRange, h, lrangeList_all]

theorem RedisClient.lRange_thrown (r : RedisClient) (k m : String)
    (h : r.nextFault = some m) :
    r.lRange k 0 (-1) = (.error m, r.logged (.lRange k 0 (-1))) := by
  simp [RedisClient.lRange, h]

theorem RedisClient.rPush_served (r : RedisClient) (k v : String)
    (h : r.nextFault = none) :
    r.rPush k v =
      (.ok ((r.store.push k v).get k).length,
        { r.logged (.rPush k v) with store := r.store.push k v }) := by
  simp [RedisClient.rPush, h]

theorem RedisClient.rPush_thrown (r : RedisClient) (k v m : String)
    (h : r.nextFault = some m) :
    r.rPush k v = (.error m, r.logged (.rPush k v)) := by
  simp [RedisClient.rPush, h]

theorem RedisClient.nextFault_of_servedAt_zero (r : RedisClient) (h : r.servedAt 0) :
    r.nextFault = none := by
  simpa [RedisClient.servedAt, RedisClient.nextFault] using h

theorem RedisClient.nextFault_of_throwsAt_zero (r : RedisClient) (m : String)
    (h : r.throwsAt 0 m) : r.nextFault = some m := by
  simpa [RedisClient.throwsAt, RedisClient.nextFault] using h

/-! ## The handlers, case by case -/

theorem lrangeHandler_served (a : App) (req : Request) (k : String)
    (h : a.redis.servedAt 0) :
    lrangeHandler a req k =
      (.ok ⟨200, .json (a.redis.store.get k)⟩,
        ((a.withRedis (a.redis.logged (.lRange k 0 (-1)))).countOperation "lrange").endTimer
          req.method "/lrange") := by
  simp [lrangeHandler, RedisClient.lRange_served _ _ (a.redis.nextFault_of_servedAt_zero h)]

theorem lrangeHandler_thrown (a : App) (req : Request) (k m : String)
    (h : a.redis.throwsAt 0 m) :
    lrangeHandler a req k =
      (.ok ⟨500, .send m⟩,
        (a.withRedis (a.redis.logged (.lRange k 0 (-1)))).endTimer req.method "/lrange") := by
  simp [lrangeHandler, RedisClient.lRange_thrown _ _ _ (a.redis.nextFault_of_throwsAt_zero m h)]

theorem rpushHandler_served (a : App) (req : Request) (k v : String)
    (h₀ : a.redis.servedAt 0) (h₁ : a.redis.servedAt 1) :
    rpushHandler a req k v =
      (.ok ⟨200, .json (a.redis.store.get k ++ [v])⟩,
        ((a.withRedis
            { a.redis with
              store := a.redis.store.push k v
              calls := a.redis.calls ++ [.rPush k v] ++ [.lRange k 0 (-1)] }).countOperation
          "rpush").endTimer req.method "/rpush") := by
  have h : ({ a.redis.logged (.rPush k v) with
      store := a.redis.store.push k v } : RedisClient).nextFault = none := by
    simpa [RedisClient.servedAt, RedisClient.nextFault, RedisClient.logged] using h₁
  unfold rpushHandler
  rw [RedisClient.rPush_served _ _ _ (a.redis.nextFault_of_servedAt_zero h₀)]
  dsimp only
  rw [RedisClient.lRange_served _ _ h]
  simp [Store.get_push_same, RedisClient.logged]

theorem rpushHandler_readThrown (a : App) (req : Request) (k v m : String)
    (h₀ : a.redis.servedAt 0) (h₁ : a.redis.throwsAt 1 m) :
    rpushHandler a req k v =
      (.ok ⟨500, .send m⟩,
        (a.withRedis
          { a.redis with
            store := a.redis.store.push k v
            calls := a.redis.calls ++ [.rPush k v] ++ [.lRange k 0 (-1)] }).endTimer
          req.method "/rpush") := by
  have h : ({ a.redis.logged (.rPush k v) with
      store := a.redis.store.push k v } : RedisClient).nextFault = some m := by
    simpa [RedisClient.throwsAt, RedisClient.nextFault, RedisClient.logged] using h₁
  unfold rpushHandler
  rw [RedisClient.rPush_served _ _ _ (a.redis.nextFault_of_servedAt_zero h₀)]
  dsimp only
  rw [RedisClient.lRange_thrown _ _ _ h]
  simp [RedisClient.logged]

theorem rpushHandler_pushThrown (a : App) (req : Request) (k v m : String)
    (h₀ : a.redis.throwsAt 0 m) :
    rpushHandler a req k v =
      (.ok ⟨500, .send m⟩,
        (a.withRedis (a.redis.logged (.rPush k v))).endTimer req.method "/rpush") := by
  simp [rpushHandler, RedisClient.rPush_thrown _ _ _ _ (a.redis.nextFault_of_throwsAt_zero m h₀)]

theorem infoHandler_served (a : App) (req : Request) (h : a.redis.servedAt 0) :
    infoHandler a req =
      (.ok ⟨200, .send a.redis.serverInfo⟩,
        ((a.withRedis (a.redis.logged .info)).countOperation "info").endTimer
          req.method "/info") := by
  simp [infoHandler, RedisClient.info, a.redis.nextFault_of_servedAt_zero h]

theorem infoHandler_thrown (a : App) (req : Request) (m : String)
    (h : a.redis.throwsAt 0 m) :
    infoHandler a req =
      (.ok ⟨500, .send m⟩, (a.withRedis (a.redis.logged .info)).endTimer req.method "/info") := by
  simp [infoHandler, RedisClient.info, a.redis.nextFault_of_throwsAt_zero m h]

theorem healthzHandler_served (a : App) (req : Request) (h : a.redis.servedAt 0) :
    healthzHandler a req =
      (.ok ⟨200, .send "OK"⟩,
        ((a.withRedis (a.redis.logged .ping)).countOperation "ping").endTimer
          req.method "/healthz") := by
  simp [healthzHandler, RedisClient.ping, a.redis.nextFault_of_servedAt_zero h]

theorem healthzHandler_thrown (a : App) (req : Request) (m : String)
    (h : a.redis.throwsAt 0 m) :
    healthzHandler a req =
      (.ok ⟨500, .send m⟩,
        (a.withRedis (a.redis.logged .ping)).endTimer req.method "/healthz") := by
  simp [healthzHandler, RedisClient.ping, a.redis.nextFault_of_throwsAt_zero m h]

/-- The middleware does not touch the client. -/
theorem App.countRequest_redis (a : App) (req : Request) :
    (a.countRequest req).redis = a.redis := rfl

/-- Either the next call is served or it throws some message. -/
theorem RedisClient.servedAt_or_throwsAt (r : RedisClient) (i : Nat) :
    r.servedAt i ∨ ∃ m, r.throwsAt i m := by
  unfold RedisClient.servedAt RedisClient.throwsAt
  cases r.fault (r.calls.length + i) with
  | none => exact Or.inl rfl
  | some m => exact Or.inr ⟨m, rfl⟩

/-! ## Append then read: `GET /rpush/:key/:value` -/

/-- C1: a request routed to `/rpush/k/v` whose two store calls are both
served is answered with status 200 and the JSON array made of the list held
under `k` before the request followed by `v`; `v` is the last element of that
array, the store holds that same list under `k` afterwards, and when `k`
held no list the array is `[v]`. -/
theorem rpush_returns_list_ending_in_value (lib : Lib) (a : App) (req : Request)
    (k v : String) (hroute : matchRoute lib req = .rpush k v)
    (hpush : a.redis.servedAt 0) (hread : a.redis.servedAt 1) :
    (handle lib a req).1 = .ok ⟨200, .json (a.redis.store.get k ++ [v])⟩ ∧
    (a.redis.store.get k ++ [v]).getLast? = some v ∧
    (handle lib a req).2.redis.store.get k = a.redis.store.get k ++ [v] ∧
    (a.redis.store.find k = none → (handle lib a req).1 = .ok ⟨200, .json [v]⟩) := by
  have hrun : handle lib a req = rpushHandler (a.countRequest req) req k v := by
    simp [handle, hroute]
  have hcase := rpushHandler_served (a.countRequest req) req k v hpush hread
  rw [App.countRequest_redis] at hcase
  rw [hrun, hcase]
  refine ⟨rfl, by simp, ?_, ?_⟩
  · simp [App.endTimer, App.countOperation, App.withRedis, Store.get_push_same]
  · intro hnone
    simp [Store.get_of_find_none _ _ hnone]

/-- C1, on the request `GET /rpush/mylist/hello` against an empty store. -/
theorem rpush_returns_list_ending_in_value_witness :
    matchRoute sampleLib ⟨"GET", "/rpush/mylist/hello"⟩ = .rpush "mylist" "hello" ∧
    (handle sampleLib (sampleApp [] noFault) ⟨"GET", "/rpush/mylist/hello"⟩).1 =
      .ok ⟨200, .json ["hello"]⟩ :=
  ⟨by decide,
    (rpush_returns_list_ending_in_value sampleLib (sampleApp [] noFault)
      ⟨"GET", "/rpush/mylist/hello"⟩ "mylist" "hello" (by decide) rfl rfl).2.2.2 rfl⟩

/-- C10: on a request routed to `/rpush/k/v`, when the append is served and
the read that follows throws `m`, the response is 500 with body `m`, no
operation counter moves, and the store nevertheless holds `v` appended to the
list under `k`; when the append itself throws `m`, the response is 500 with
body `m`, the append is the only call issued (no read follows) and the store
is unchanged. -/
theorem rpush_not_atomic_on_error (lib : Lib) (a : App) (req : Request)
    (k v m : String) (hroute : matchRoute lib req = .rpush k v) :
    (a.redis.servedAt 0 → a.redis.throwsAt 1 m →
      (handle lib a req).1 = .ok ⟨500, .send m⟩ ∧
      (handle lib a req).2.metrics.redisOperationsTotal = a.metrics.redisOperationsTotal ∧
      (handle lib a req).2.redis.store = a.redis.store.push k v ∧
      (handle lib a req).2.redis.store.get k = a.redis.store.get k ++ [v]) ∧
    (a.redis.throwsAt 0 m →
      (handle lib a req).1 = .ok ⟨500, .send m⟩ ∧
      (handle lib a req).2.redis.calls = a.redis.calls ++ [.rPush k v] ∧
      (handle lib a req).2.redis.store = a.redis.store) := by
  have hrun : handle lib a req = rpushHandler (a.countRequest req) req k v := by
    simp [handle, hroute]
  constructor
  · intro hpush hread
    have hcase := rpushHandler_readThrown (a.countRequest req) req k v m hpush hread
    rw [App.countRequest_redis] at hcase
    rw [hrun, hcase]
    refine ⟨rfl, rfl, rfl, ?_⟩
    simp [App.endTimer, App.withRedis, Store.get_push_same]
  · intro hpush
    have hcase := rpushHandler_pushThrown (a.countRequest req) req k v m hpush
    rw [App.countRequest_redis] at hcase
    rw [hrun, hcase]
    exact ⟨rfl, rfl, rfl⟩

/-- C10, on `GET /rpush/mylist/hello` over a store holding `["a"]` under
`mylist`, with the read (call number 1) throwing. -/
theorem rpush_not_atomic_on_error_witness :
    (handle sampleLib (sampleApp [("mylist", ["a"])] (faultAt 1 "Socket closed"))
        ⟨"GET", "/rpush/mylist/hello"⟩).1 = .ok ⟨500, .send "Socket closed"⟩ ∧
    (handle sampleLib (sampleApp [("mylist", ["a"])] (faultAt 1 "Socket closed"))
        ⟨"GET", "/rpush/mylist/hello"⟩).2.redis.store.get "mylist" = ["a", "hello"] :=
  have h := (rpush_not_atomic_on_error sampleLib
    (sampleApp [("mylist", ["a"])] (faultAt 1 "Socket closed"))
    ⟨"GET", "/rpush/mylist/hello"⟩ "mylist" "hello" "Socket closed" (by decide)).1 rfl rfl
  ⟨h.1, h.2.2.2⟩

/-! ## Read: `GET /lrange/:key` -/

/-- C2: a request routed to `/lrange/k`, for a key `k` under which the store
holds no list, is answered with status 200 and the empty JSON array once the
store has served the read. -/
theorem lrange_of_unwritten_key_is_empty (lib : Lib) (a : App) (req : Request)
    (k : String) (hroute : matchRoute lib req = .lrange k)
    (hkey : a.redis.store.find k = none) (hread : a.redis.servedAt 0) :
    (handle lib a req).1 = .ok ⟨200, .json []⟩ := by
  have hrun : handle lib a req = lrangeHandler (a.countRequest req) req k := by
    simp [handle, hroute]
  have hcase := lrangeHandler_served (a.countRequest req) req k hread
  rw [App.countRequest_redis] at hcase
  rw [hrun, hcase, Store.get_of_find_none _ _ hkey]

/-- C2, on the request `GET /lrange/doesnotexist` against a store that holds
another key only. -/
theorem lrange_of_unwritten_key_is_empty_witness :
    matchRoute sampleLib ⟨"GET", "/lrange/doesnotexist"⟩ = .lrange "doesnotexist" ∧
    (handle sampleLib (sampleApp [("mylist", ["a"])] noFault)
        ⟨"GET", "/lrange/doesnotexist"⟩).1 = .ok ⟨200, .json []⟩ :=
  ⟨by decide,
    lrange_of_unwritten_key_is_empty sampleLib (sampleApp [("mylist", ["a"])] noFault)
      ⟨"GET", "/lrange/doesnotexist"⟩ "doesnotexist" (by decide) (by decide) rfl⟩

/-! ## Errors of the store -/

/-- C3: on a request routed to `/lrange/:key`, `/rpush/:key/:value`, `/info`
or `/healthz` (the routes whose handler calls the store), if the calls before
the `i`-th one of the handler are served and the `i`-th throws an error with
message `m`, then the handler ends with a response (the exception does not
leave it), the response has status 500 and body `m`, and the calls issued by
the request are the calls of the handler up to the one that threw, each of
them once: nothing is retried and nothing is called after the failure. -/
theorem store_error_is_caught_as_500 (lib : Lib) (a : App) (req : Request)
    (m : String) (i : Nat) (hi : i < (matchRoute lib req).storeCalls.length)
    (hbefore : ∀ j, j < i → a.redis.servedAt j) (hthrow : a.redis.throwsAt i m) :
    (handle lib a req).1 = .ok ⟨500, .send m⟩ ∧
    (handle lib a req).2.redis.calls =
      a.redis.calls ++ (matchRoute lib req).storeCalls.take (i + 1) := by
  cases hroute : matchRoute lib req with
  | lrange k =>
    rw [hroute] at hi
    have hz : i = 0 := by simpa [Route.storeCalls] using hi
    subst hz
    have hrun : handle lib a req = lrangeHandler (a.countRequest req) req k := by
      simp [handle, hroute]
    have hcase := lrangeHandler_thrown (a.countRequest req) req k m hthrow
    rw [App.countRequest_redis] at hcase
    rw [hrun, hcase]
    exact ⟨rfl, rfl⟩
  | rpush k v =>
    rw [hroute] at hi
    have hrun : handle lib a req = rpushHandler (a.countRequest req) req k v := by
      simp [handle, hroute]
    have hlt : i < 2 := by simpa [Route.storeCalls] using hi
    match i, hlt, hbefore, hthrow with
    | 0, _, _, hthrow =>
      have hcase := rpushHandler_pushThrown (a.countRequest req) req k v m hthrow
      rw [App.countRequest_redis] at hcase
      rw [hrun, hcase]
      exact ⟨rfl, rfl⟩
    | 1, _, hbefore, hthrow =>
      have hcase := rpushHandler_readThrown (a.countRequest req) req k v m
        (hbefore 0 (by decide)) hthrow
      rw [App.countRequest_redis] at hcase
      rw [hrun, hcase]
      refine ⟨rfl, ?_⟩
      simp [App.endTimer, App.withRedis, Route.storeCalls]
  | info =>
    rw [hroute] at hi
    have hz : i = 0 := by simpa [Route.storeCalls] using hi
    subst hz
    have hrun : handle lib a req = infoHandler (a.countRequest req) req := by
      simp [handle, hroute]
    have hcase := infoHandler_thrown (a.countRequest req) req m hthrow
    rw [App.countRequest_redis] at hcase
    rw [hrun, hcase]
    exact ⟨rfl, rfl⟩
  | healthz =>
    rw [hroute] at hi
    have hz : i = 0 := by simpa [Route.storeCalls] using hi
    subst hz
    have hrun : handle lib a req = healthzHandler (a.countRequest req) req := by
      simp [handle, hroute]
    have hcase := healthzHandler_thrown (a.countRequest req) req m hthrow
    rw [App.countRequest_redis] at hcase
    rw [hrun, hcase]
    exact ⟨rfl, rfl⟩
  | env => rw [hroute] at hi; simp [Route.storeCalls] at hi
  | metrics => rw [hroute] at hi; simp [Route.storeCalls] at hi
  | unhandled => rw [hroute] at hi; simp [Route.storeCalls] at hi

/-- C3, on `GET /rpush/mylist/hello` with the read (second call of the
handler) throwing. -/
theorem store_error_is_caught_as_500_witness :
    (handle sampleLib (sampleApp [] (faultAt 1 "Socket closed"))
        ⟨"GET", "/rpush/mylist/hello"⟩).1 = .ok ⟨500, .send "Socket closed"⟩ ∧
    (handle sampleLib (sampleApp [] (faultAt 1 "Socket closed"))
        ⟨"GET", "/rpush/mylist/hello"⟩).2.redis.calls =
      [] ++ (matchRoute sampleLib ⟨"GET", "/rpush/mylist/hello"⟩).storeCalls.take (1 + 1) :=
  store_error_is_caught_as_500 sampleLib (sampleApp [] (faultAt 1 "Socket closed"))
    ⟨"GET", "/rpush/mylist/hello"⟩ "Socket closed" 1 (by decide)
    (fun j hj => by
      have hz : j = 0 := by omega
      subst hz
      rfl)
    rfl

/-! ## Health check: `GET /healthz` -/

/-- C4: on a request routed to `/healthz`, the status is 200 exactly when the
ping issued by the request is served, it is 500 when the ping throws, and the
request issues that one ping and no other call. -/
theorem healthz_ok_iff_ping_served (lib : Lib) (a : App) (req : Request)
    (hroute : matchRoute lib req = .healthz) :
    (status (handle lib a req).1 = some 200 ↔ a.redis.servedAt 0) ∧
    (¬ a.redis.servedAt 0 → status (handle lib a req).1 = some 500) ∧
    (handle lib a req).2.redis.calls = a.redis.calls ++ [.ping] := by
  have hrun : handle lib a req = healthzHandler (a.countRequest req) req := by
    simp [handle, hroute]
  rcases a.redis.servedAt_or_throwsAt 0 with hs | ⟨m, ht⟩
  · have hcase := healthzHandler_served (a.countRequest req) req hs
    rw [App.countRequest_redis] at hcase
    rw [hrun, hcase]
    exact ⟨⟨fun _ => hs, fun _ => rfl⟩, fun hn => absurd hs hn, rfl⟩
  · have hcase := healthzHandler_thrown (a.countRequest req) req m ht
    rw [App.countRequest_redis] at hcase
    have hns : ¬ a.redis.servedAt 0 := by
      intro hs
      unfold RedisClient.servedAt at hs
      unfold RedisClient.throwsAt at ht
      rw [hs] at ht
      exact Option.noConfusion ht
    rw [hrun, hcase]
    refine ⟨⟨fun h => ?_, fun hs => absurd hs hns⟩, fun _ => rfl, rfl⟩
    simp [status] at h

/-- C4, on `GET /healthz` with the ping served and with the ping throwing. -/
theorem healthz_ok_iff_ping_served_witness :
    status (handle sampleLib (sampleApp [] noFault) ⟨"GET", "/healthz"⟩).1 = some 200 ∧
    status (handle sampleLib (sampleApp [] (faultAt 0 "Socket closed"))
      ⟨"GET", "/healthz"⟩).1 = some 500 :=
  ⟨(healthz_ok_iff_ping_served sampleLib (sampleApp [] noFault) ⟨"GET", "/healthz"⟩
      (by decide)).1.2 rfl,
    (healthz_ok_iff_ping_served sampleLib (sampleApp [] (faultAt 0 "Socket closed"))
      ⟨"GET", "/healthz"⟩ (by decide)).2.1 (by
        intro h
        exact Option.noConfusion (h : faultAt 0 "Socket closed" (0 + 0) = none))⟩

/-! ## The request counter -/

/-- No handler touches `http_requests_total`. -/
theorem handlers_keep_httpRequestsTotal (lib : Lib) (a : App) (req : Request) :
    (∀ k, (lrangeHandler a req k).2.metrics.httpRequestsTotal = a.metrics.httpRequestsTotal) ∧
    (∀ k v,
      (rpushHandler a req k v).2.metrics.httpRequestsTotal = a.metrics.httpRequestsTotal) ∧
    (infoHandler a req).2.metrics.httpRequestsTotal = a.metrics.httpRequestsTotal ∧
    (envHandler a req).2.metrics.httpRequestsTotal = a.metrics.httpRequestsTotal ∧
    (healthzHandler a req).2.metrics.httpRequestsTotal = a.metrics.httpRequestsTotal ∧
    (metricsHandler lib a).2.metrics.httpRequestsTotal = a.metrics.httpRequestsTotal := by
  refine ⟨fun k => ?_, fun k v => ?_, ?_, rfl, ?_, ?_⟩
  · unfold lrangeHandler
    split <;> rfl
  · unfold rpushHandler
    split
    · split <;> rfl
    · rfl
  · unfold infoHandler
    split <;> rfl
  · unfold healthzHandler
    split <;> rfl
  · unfold metricsHandler
    split <;> rfl

/-- C5: for every request, whatever handler it reaches (a store-backed
route, `/env`, `/metrics`, or none) and however that handler ends, the
counter `http_requests_total` grows by exactly 1 at the labels
`(req.method, req.path)`, the path being the one of the request and not the
route template, and keeps its value at every other pair of labels. -/
theorem every_request_counted_once (lib : Lib) (a : App) (req : Request)
    (method endpoint : String) :
    (handle lib a req).2.metrics.httpRequestsTotal (method, endpoint) =
      a.metrics.httpRequestsTotal (method, endpoint) +
        (if (method, endpoint) = (req.method, req.path) then 1 else 0) := by
  have hframe := handlers_keep_httpRequestsTotal lib (a.countRequest req) req
  have hcount : (handle lib a req).2.metrics.httpRequestsTotal =
      (a.countRequest req).metrics.httpRequestsTotal := by
    unfold handle
    cases matchRoute lib req with
    | lrange k => exact hframe.1 k
    | rpush k v => exact hframe.2.1 k v
    | info => exact hframe.2.2.1
    | env => exact hframe.2.2.2.1
    | healthz => exact hframe.2.2.2.2.1
    | metrics => exact hframe.2.2.2.2.2
    | unhandled => rfl
  rw [hcount]
  show a.metrics.httpRequestsTotal.inc (req.method, req.path) (method, endpoint) = _
  unfold Counter.inc
  split <;> rfl

/-! ## The duration histogram -/

/-- Each handler records one observation, `/metrics` records none. -/
theorem handlers_httpRequestDuration (lib : Lib) (a : App) (req : Request) :
    (∀ k, (lrangeHandler a req k).2.metrics.httpRequestDuration =
      a.metrics.httpRequestDuration ++ [(req.method, "/lrange")]) ∧
    (∀ k v, (rpushHandler a req k v).2.metrics.httpRequestDuration =
      a.metrics.httpRequestDuration ++ [(req.method, "/rpush")]) ∧
    (infoHandler a req).2.metrics.httpRequestDuration =
      a.metrics.httpRequestDuration ++ [(req.method, "/info")] ∧
    (envHandler a req).2.metrics.httpRequestDuration =
      a.metrics.httpRequestDuration ++ [(req.method, "/env")] ∧
    (healthzHandler a req).2.metrics.httpRequestDuration =
      a.metrics.httpRequestDuration ++ [(req.method, "/healthz")] ∧
    (metricsHandler lib a).2.metrics.httpRequestDuration = a.metrics.httpRequestDuration := by
  refine ⟨fun k => ?_, fun k v => ?_, ?_, rfl, ?_, ?_⟩
  · unfold lrangeHandler
    split <;> rfl
  · unfold rpushHandler
    split
    · split <;> rfl
    · rfl
  · unfold infoHandler
    split <;> rfl
  · unfold healthzHandler
    split <;> rfl
  · unfold metricsHandler
    split <;> rfl

/-- C6, refuted as stated: the request `GET /env` is routed to the handler of
`/env` and records an observation in `http_request_duration_seconds`, under
the endpoint label `/env`. -/
theorem env_request_records_duration :
    matchRoute sampleLib ⟨"GET", "/env"⟩ = .env ∧
    (sampleApp [] noFault).metrics.httpRequestDuration = [] ∧
    (handle sampleLib (sampleApp [] noFault) ⟨"GET", "/env"⟩).2.metrics.httpRequestDuration =
      [("GET", "/env")] := by
  decide

/-- C6, amended: a request appends to `http_request_duration_seconds` exactly
the observation of the timer of its route, labelled with the method of the
request and the endpoint of the route. Hence a request records exactly one
observation if and only if it is routed to `/lrange`, `/rpush`, `/info`,
`/env` or `/healthz`, whether the handler succeeds or fails, and records none
when it is routed to `/metrics` or to no handler. -/
theorem duration_observed_iff_timed_route (lib : Lib) (a : App) (req : Request) :
    (handle lib a req).2.metrics.httpRequestDuration =
      a.metrics.httpRequestDuration ++
        (match (matchRoute lib req).timerEndpoint with
         | some endpoint => [(req.method, endpoint)]
         | none => []) ∧
    ((handle lib a req).2.metrics.httpRequestDuration.length =
        a.metrics.httpRequestDuration.length + 1 ↔
      matchRoute lib req ≠ .metrics ∧ matchRoute lib req ≠ .unhandled) ∧
    ((handle lib a req).2.metrics.httpRequestDuration = a.metrics.httpRequestDuration ↔
      matchRoute lib req = .metrics ∨ matchRoute lib req = .unhandled) := by
  have hframe := handlers_httpRequestDuration lib (a.countRequest req) req
  have hmain : (handle lib a req).2.metrics.httpRequestDuration =
      a.metrics.httpRequestDuration ++
        (match (matchRoute lib req).timerEndpoint with
         | some endpoint => [(req.method, endpoint)]
         | none => []) := by
    unfold handle
    cases matchRoute lib req with
    | lrange k => exact hframe.1 k
    | rpush k v => exact hframe.2.1 k v
    | info => exact hframe.2.2.1
    | env => exact hframe.2.2.2.1
    | healthz => exact hframe.2.2.2.2.1
    | metrics => simpa [Route.timerEndpoint] using hframe.2.2.2.2.2
    | unhandled => simp [Route.timerEndpoint, App.countRequest]
  refine ⟨hmain, ?_, ?_⟩
  · rw [hmain]
    cases matchRoute lib req <;> simp [Route.timerEndpoint]
  · rw [hmain]
    cases matchRoute lib req <;> simp [Route.timerEndpoint]

/-! ## The operation counter -/

/-- A call that is not served throws. -/
theorem RedisClient.throwsAt_of_not_servedAt (r : RedisClient) (i : Nat)
    (h : ¬ r.servedAt i) : ∃ m, r.throwsAt i m := by
  rcases r.servedAt_or_throwsAt i with hs | ht
  · exact absurd hs h
  · exact ht

/-- The handlers of `/env` and `/metrics` do not touch the operation counter. -/
theorem storeless_handlers_keep_redisOperationsTotal (lib : Lib) (a : App) (req : Request) :
    (envHandler a req).2.metrics.redisOperationsTotal = a.metrics.redisOperationsTotal ∧
    (metricsHandler lib a).2.metrics.redisOperationsTotal = a.metrics.redisOperationsTotal := by
  refine ⟨rfl, ?_⟩
  unfold metricsHandler
  split <;> rfl

/-- Value of a counter after an increment. -/
theorem Counter.inc_apply (c : Counter String) (l x : String) :
    c.inc l x = c x + (if some l = some x then 1 else 0) := by
  unfold Counter.inc
  by_cases h : x = l
  · subst h
    simp
  · have h' : ¬ l = x := fun e => h e.symm
    simp [h, h']

/-- C7: on any request, if every store call of its handler is served then
`redis_operations_total` grows by exactly 1 at the operation label of the
route (`lrange`, `rpush`, `info`, `ping` for `/lrange`, `/rpush`, `/info`,
`/healthz`) and keeps its value at every other label; if some store call of
the handler is not served, no label changes. In particular a served `/rpush`
adds 1 under `rpush` and nothing under `lrange`. -/
theorem operation_counted_on_success_only (lib : Lib) (a : App) (req : Request) :
    ((∀ j, j < (matchRoute lib req).storeCalls.length → a.redis.servedAt j) →
      ∀ label, (handle lib a req).2.metrics.redisOperationsTotal label =
        a.metrics.redisOperationsTotal label +
          (if (matchRoute lib req).operation = some label then 1 else 0)) ∧
    ((∃ j, j < (matchRoute lib req).storeCalls.length ∧ ¬ a.redis.servedAt j) →
      (handle lib a req).2.metrics.redisOperationsTotal = a.metrics.redisOperationsTotal) ∧
    (∀ k v, matchRoute lib req = .rpush k v → a.redis.servedAt 0 → a.redis.servedAt 1 →
      (handle lib a req).2.metrics.redisOperationsTotal "rpush" =
        a.metrics.redisOperationsTotal "rpush" + 1 ∧
      (handle lib a req).2.metrics.redisOperationsTotal "lrange" =
        a.metrics.redisOperationsTotal "lrange") := by
  have hstoreless := storeless_handlers_keep_redisOperationsTotal lib (a.countRequest req) req
  refine ⟨?_, ?_, ?_⟩
  · intro hall label
    cases hroute : matchRoute lib req with
    | lrange k =>
      rw [hroute] at hall
      have hrun : handle lib a req = lrangeHandler (a.countRequest req) req k := by
        simp [handle, hroute]
      rw [hrun, lrangeHandler_served (a.countRequest req) req k
        (hall 0 (by simp [Route.storeCalls]))]
      exact Counter.inc_apply _ _ _
    | rpush k v =>
      rw [hroute] at hall
      have hrun : handle lib a req = rpushHandler (a.countRequest req) req k v := by
        simp [handle, hroute]
      rw [hrun, rpushHandler_served (a.countRequest req) req k v
        (hall 0 (by simp [Route.storeCalls])) (hall 1 (by simp [Route.storeCalls]))]
      exact Counter.inc_apply _ _ _
    | info =>
      rw [hroute] at hall
      have hrun : handle lib a req = infoHandler (a.countRequest req) req := by
        simp [handle, hroute]
      rw [hrun, infoHandler_served (a.countRequest req) req
        (hall 0 (by simp [Route.storeCalls]))]
      exact Counter.inc_apply _ _ _
    | healthz =>
      rw [hroute] at hall
      have hrun : handle lib a req = healthzHandler (a.countRequest req) req := by
        simp [handle, hroute]
      rw [hrun, healthzHandler_served (a.countRequest req) req
        (hall 0 (by simp [Route.storeCalls]))]
      exact Counter.inc_apply _ _ _
    | env =>
      have hrun : handle lib a req = envHandler (a.countRequest req) req := by
        simp [handle, hroute]
      rw [hrun, hstoreless.1]
      simp [Route.operation, App.countRequest]
    | metrics =>
      have hrun : handle lib a req = metricsHandler lib (a.countRequest req) := by
        simp [handle, hroute]
      rw [hrun, hstoreless.2]
      simp [Route.operation, App.countRequest]
    | unhandled =>
      have hrun : handle lib a req = (lib.frameworkReply req, a.countRequest req) := by
        simp [handle, hroute]
      rw [hrun]
      simp [Route.operation, App.countRequest]
  · rintro ⟨j, hj, hnot⟩
    cases hroute : matchRoute lib req with
    | lrange k =>
      rw [hroute] at hj
      have hz : j = 0 := by simpa [Route.storeCalls] using hj
      subst hz
      obtain ⟨m, hm⟩ := a.redis.throwsAt_of_not_servedAt 0 hnot
      have hrun : handle lib a req = lrangeHandler (a.countRequest req) req k := by
        simp [handle, hroute]
      rw [hrun, lrangeHandler_thrown (a.countRequest req) req k m hm]
      rfl
    | rpush k v =>
      rw [hroute] at hj
      have hlt : j < 2 := by simpa [Route.storeCalls] using hj
      have hrun : handle lib a req = rpushHandler (a.countRequest req) req k v := by
        simp [handle, hroute]
      rcases a.redis.servedAt_or_throwsAt 0 with hs | ⟨m, hm⟩
      · have hone : j = 1 := by
          rcases Nat.lt_or_ge j 1 with h | h
          · have hz : j = 0 := by omega
            subst hz
            exact absurd hs hnot
          · omega
        subst hone
        obtain ⟨m, hm⟩ := a.redis.throwsAt_of_not_servedAt 1 hnot
        rw [hrun, rpushHandler_readThrown (a.countRequest req) req k v m hs hm]
        rfl
      · rw [hrun, rpushHandler_pushThrown (a.countRequest req) req k v m hm]
        rfl
    | info =>
      rw [hroute] at hj
      have hz : j = 0 := by simpa [Route.storeCalls] using hj
      subst hz
      obtain ⟨m, hm⟩ := a.redis.throwsAt_of_not_servedAt 0 hnot
      have hrun : handle lib a req = infoHandler (a.countRequest req) req := by
        simp [handle, hroute]
      rw [hrun, infoHandler_thrown (a.countRequest req) req m hm]
      rfl
    | healthz =>
      rw [hroute] at hj
      have hz : j = 0 := by simpa [Route.storeCalls] using hj
      subst hz
      obtain ⟨m, hm⟩ := a.redis.throwsAt_of_not_servedAt 0 hnot
      have hrun : handle lib a req = healthzHandler (a.countRequest req) req := by
        simp [handle, hroute]
      rw [hrun, healthzHandler_thrown (a.countRequest req) req m hm]
      rfl
    | env => rw [hroute] at hj; simp [Route.storeCalls] at hj
    | metrics => rw [hroute] at hj; simp [Route.storeCalls] at hj
    | unhandled => rw [hroute] at hj; simp [Route.storeCalls] at hj
  · intro k v hroute hpush hread
    have hrun : handle lib a req = rpushHandler (a.countRequest req) req k v := by
      simp [handle, hroute]
    rw [hrun, rpushHandler_served (a.countRequest req) req k v hpush hread]
    constructor
    · simp [Counter.inc, App.countRequest, App.withRedis, App.countOperation, App.endTimer]
    · simp [Counter.inc, App.countRequest, App.withRedis, App.countOperation, App.endTimer]

/-- C7, on a served `GET /rpush/mylist/hello` and on a `GET /info` whose
call throws. -/
theorem operation_counted_on_success_only_witness :
    (handle sampleLib (sampleApp [] noFault)
        ⟨"GET", "/rpush/mylist/hello"⟩).2.metrics.redisOperationsTotal "rpush" = 0 + 1 ∧
    (handle sampleLib (sampleApp [] noFault)
        ⟨"GET", "/rpush/mylist/hello"⟩).2.metrics.redisOperationsTotal "lrange" = 0 ∧
    (handle sampleLib (sampleApp [] (faultAt 0 "Socket closed"))
        ⟨"GET", "/info"⟩).2.metrics.redisOperationsTotal =
      (sampleApp [] (faultAt 0 "Socket closed")).metrics.redisOperationsTotal :=
  have h := (operation_counted_on_success_only sampleLib (sampleApp [] noFault)
    ⟨"GET", "/rpush/mylist/hello"⟩).2.2 "mylist" "hello" (by decide) rfl rfl
  ⟨h.1, h.2,
    (operation_counted_on_success_only sampleLib (sampleApp [] (faultAt 0 "Socket closed"))
      ⟨"GET", "/info"⟩).2.1 ⟨0, by decide, fun hs =>
        Option.noConfusion (hs : faultAt 0 "Socket closed" (0 + 0) = none)⟩⟩

/-! ## Start-up -/

/-- C8: starting from a process whose listener is not bound, after
`main().catch(console.error)` the listener is bound, to port 3000, exactly
when the `connect` call was served; `connect` is the one call made on the
client; and when `connect` throws `m` the listener stays unbound, nothing is
written by `console.log` and `m` is written by `console.error`. -/
theorem listener_bound_only_after_connect (p : Process) (hunbound : p.listening = none) :
    ((start p).listening = some 3000 ↔ p.app.redis.servedAt 0) ∧
    ((start p).listening = none ↔ ¬ p.app.redis.servedAt 0) ∧
    (start p).app.redis.calls = p.app.redis.calls ++ [.connect] ∧
    (∀ m, p.app.redis.throwsAt 0 m →
      (start p).listening = none ∧ (start p).stdout = p.stdout ∧
      (start p).stderr = p.stderr ++ [m]) := by
  rcases p.app.redis.servedAt_or_throwsAt 0 with hs | ⟨m, ht⟩
  · have h₀ := p.app.redis.nextFault_of_servedAt_zero hs
    have hrun : start p =
        { p with
          app := p.app.withRedis (p.app.redis.logged .connect)
          listening := some 3000
          stdout := p.stdout ++ ["Server is running on port 3000"] } := by
      simp [start, main, RedisClient.connect, h₀]
    rw [hrun]
    refine ⟨⟨fun _ => hs, fun _ => rfl⟩, ⟨fun h => ?_, fun hn => absurd hs hn⟩, rfl, ?_⟩
    · simp at h
    · intro m' ht
      unfold RedisClient.servedAt at hs
      unfold RedisClient.throwsAt at ht
      rw [hs] at ht
      exact Option.noConfusion ht
  · have h₀ := p.app.redis.nextFault_of_throwsAt_zero m ht
    have hns : ¬ p.app.redis.servedAt 0 := by
      intro hs
      unfold RedisClient.servedAt at hs
      unfold RedisClient.throwsAt at ht
      rw [hs] at ht
      exact Option.noConfusion ht
    have hrun : start p =
        { p with
          app := p.app.withRedis (p.app.redis.logged .connect)
          stderr := p.stderr ++ [m] } := by
      simp [start, main, RedisClient.connect, h₀]
    rw [hrun]
    refine ⟨⟨fun h => ?_, fun hs => absurd hs hns⟩, ⟨fun _ => hns, fun _ => hunbound⟩, rfl, ?_⟩
    · simp [hunbound] at h
    · intro m' ht'
      have hm : m' = m := by
        unfold RedisClient.throwsAt at ht ht'
        rw [ht] at ht'
        exact (Option.some.inj ht').symm
      subst hm
      exact ⟨hunbound, rfl, rfl⟩

/-- C8, on a freshly booted process whose `connect` throws, and on one whose
`connect` is served. -/
theorem listener_bound_only_after_connect_witness :
    (start (Process.boot [] [] "" (faultAt 0 "connect ECONNREFUSED"))).listening = none ∧
    (start (Process.boot [] [] "" (faultAt 0 "connect ECONNREFUSED"))).stderr =
      [] ++ ["connect ECONNREFUSED"] ∧
    (start (Process.boot [] [] "" noFault)).listening = some 3000 :=
  have h := (listener_bound_only_after_connect
    (Process.boot [] [] "" (faultAt 0 "connect ECONNREFUSED")) rfl).2.2.2
      "connect ECONNREFUSED" rfl
  ⟨h.1, h.2.2,
    (listener_bound_only_after_connect (Process.boot [] [] "" noFault) rfl).1.2 rfl⟩

/-! ## The store URL -/

/-- C9, refuted as stated: with `REDIS_HOST` set to the empty string the URL
is `redis://localhost:6379`, not `redis://:6379`. -/
theorem empty_redis_host_gives_localhost :
    Env.lookupVar [("REDIS_HOST", "")] "REDIS_HOST" = some "" ∧
    redisUrl [("REDIS_HOST", "")] = "redis://localhost:6379" ∧
    redisUrl [("REDIS_HOST", "")] ≠ "redis://" ++ "" ++ ":6379" := by
  decide

/-- C9, amended: the URL given to the client is a function of the
environment; when `REDIS_HOST` is set to a non-empty string `h` it is
`redis://h:6379`; when `REDIS_HOST` is absent or empty it is
`redis://localhost:6379`; in every case it is `redis://`, a non-empty host
and `:6379`. -/
theorem redisUrl_from_environment (env : Env) :
    (∀ h, env.lookupVar "REDIS_HOST" = some h → h ≠ "" →
      redisUrl env = "redis://" ++ h ++ ":6379") ∧
    (env.lookupVar "REDIS_HOST" = none ∨ env.lookupVar "REDIS_HOST" = some "" →
      redisUrl env = "redis://localhost:6379") ∧
    (∃ host, host ≠ "" ∧ redisUrl env = "redis://" ++ host ++ ":6379") ∧
    (∀ store serverInfo fault,
      (Process.boot env store serverInfo fault).app.redis.url = redisUrl env) := by
  refine ⟨?_, ?_, ?_, fun _ _ _ => rfl⟩
  · intro h hset hne
    simp [redisUrl, redisHost, hset, hne]
  · rintro (hnone | hempty)
    · simp [redisUrl, redisHost, hnone]
    · simp [redisUrl, redisHost, hempty]
  · refine ⟨redisHost env, ?_, rfl⟩
    unfold redisHost
    split
    · decide
    · split
      · decide
      · assumption

/-- C9 amended, on an environment that names a host and on one that sets
`REDIS_HOST` to the empty string. -/
theorem redisUrl_from_environment_witness :
    redisUrl [("PATH", "/usr/bin"), ("REDIS_HOST", "redis-leader")] =
      "redis://" ++ "redis-leader" ++ ":6379" ∧
    redisUrl [("REDIS_HOST", "")] = "redis://localhost:6379" :=
  ⟨(redisUrl_from_environment [("PATH", "/usr/bin"), ("REDIS_HOST", "redis-leader")]).1
      "redis-leader" (by decide) (by decide),
    (redisUrl_from_environment [("REDIS_HOST", "")]).2.1 (Or.inr (by decide))⟩

end Dojo
